import Mathlib

/-!
# AvailabilityRepository (asesorias_api)

A shallow embedding of
`src/infrastructure/repositories/typeorm/AvailabilityRepository.js`:
the four guards and the repository methods `create`, `get`, `byUuidOrFail`,
`update`, `count`, `persist` and `find`.

* JavaScript values are the inductive `Value`; an object is its prototype chain
  (the constructor names `instanceof` can see) and its own properties in
  enumeration order.
* A thrown exception and a rejected promise are both `Except.error`, the thrown
  value being a `Value`.
* The storage backend (`this.repository`, a TypeORM repository) is a parameter:
  three functions over an abstract store. Every call the repository makes to it
  is appended to `World.calls`.
* `polyfill` (from the `helpers` module) and `Joi` are not part of the sources;
  they are parameters (`Polyfill`, `Joi`).
* Properties are kept in the order they were defined; the engine's rule that
  integer-like names are enumerated first is not modelled, and the characters
  of a string are its code points. Both only matter when an array or a string
  is spread or indexed.
-/

namespace Asesorias

/-! ## Values -/

/-- JavaScript values. `num` carries the integers the repository handles (status
codes, offsets); `obj chain fields` is an object whose prototype chain has the
constructors `chain` and whose own properties are `fields`. -/
inductive Value where
  | undefined
  | null
  | bool (b : Bool)
  | num (n : Int)
  | str (s : String)
  | arr (items : List Value)
  | obj (chain : List String) (fields : List (String × Value))

/-- Own properties of an object: name and value, in enumeration order. -/
abbrev Fields := List (String × Value)

/-- Names of the properties. -/
def keys (fs : Fields) : List String :=
  fs.map Prod.fst

/-- Value of the own property `k`, when there is one. -/
def getField (k : String) : Fields → Option Value
  | [] => none
  | (k', v) :: rest => if k' = k then some v else getField k rest

/-- Define or overwrite the property `k`: an existing property keeps its place,
a new one goes last. -/
def setField (k : String) (v : Value) : Fields → Fields
  | [] => [(k, v)]
  | (k', v') :: rest => if k' = k then (k, v) :: rest else (k', v') :: setField k v rest

/-- The properties `acc` of an object literal after a spread element whose
source has the own properties `src`. -/
def spreadInto (acc src : Fields) : Fields :=
  src.foldl (fun a kv => setField kv.1 kv.2 a) acc

/-- Index-named properties `start`, `start + 1`, ... of an array or string. -/
def indexed : Nat → List Value → Fields
  | _, [] => []
  | i, v :: rest => (toString i, v) :: indexed (i + 1) rest

/-- The own enumerable properties a spread element copies from `v`: those of an
object, the elements of an array, the characters of a string, nothing for the
other primitives. -/
def ownEntries : Value → Fields
  | .obj _ fs => fs
  | .arr items => indexed 0 items
  | .str s => indexed 0 (s.data.map fun c => Value.str (String.singleton c))
  | _ => []

/-- The object literal with the single element `...v`. -/
def spread (v : Value) : Value :=
  .obj [] (spreadInto [] (ownEntries v))

/-- A default parameter value: used when the argument is `undefined`. -/
def orDefault (v d : Value) : Value :=
  match v with
  | .undefined => d
  | _ => v

/-- The `TypeError` the engine itself throws (reading a property of `undefined`,
destructuring a value that is not iterable). Its message is engine-specific and
is not modelled. -/
def engineTypeError : Value :=
  .obj ["TypeError", "Error"] []

/-- The property read `v.k` for the names the repository reads (`id`, `limit`),
which only an object can carry: it throws on `undefined` and `null`, and is
`undefined` on a primitive, on an array and on an object without the property.
Only own properties are read: what a class puts on its prototype is not part of
`Value`, so the statements about class instances take the value read as a
hypothesis, and those that read a missing property are about plain objects. -/
def member (v : Value) (k : String) : Except Value Value :=
  match v with
  | .undefined => .error engineTypeError
  | .null => .error engineTypeError
  | .obj _ fs => .ok ((getField k fs).getD .undefined)
  | _ => .ok .undefined

/-- The read `v[0]`. -/
def first (v : Value) : Except Value Value :=
  match v with
  | .undefined => .error engineTypeError
  | .null => .error engineTypeError
  | .arr items => .ok (items.headD .undefined)
  | .str s => .ok ((s.data.head?.map fun c => Value.str (String.singleton c)).getD .undefined)
  | .obj _ fs => .ok ((getField "0" fs).getD .undefined)
  | _ => .ok .undefined

/-- The array pattern `const [a, b] = v`: the first two items of an array or
string (`undefined` where there is none); any other value is not iterable. -/
def destructurePair (v : Value) : Except Value (Value × Value) :=
  match v with
  | .arr items => .ok (items.headD .undefined, items.tail.headD .undefined)
  | .str s =>
    let cs := s.data.map fun c => Value.str (String.singleton c)
    .ok (cs.headD .undefined, cs.tail.headD .undefined)
  | _ => .error engineTypeError

/-- The test `v instanceof C`, `C` being the class named `cls`. -/
def instanceOf (v : Value) (cls : String) : Bool :=
  match v with
  | .obj chain _ => chain.contains cls
  | _ => false

/-- The value of `new Error(message)`. -/
def newError (message : String) : Fields :=
  [("message", .str message)]

/-! ## Imported modules -/

/-- The `polyfill` object of the `helpers` module, which is not among the
sources: its two functions are parameters. -/
structure Polyfill where
  empty : Value → Bool
  isset : Value → Bool

/-- The part of `Joi` that is used: `guidError v` is
`Joi.string().guid().validate(v).error`, either `undefined` (`none`) or a
`ValidationError` object with the given own properties. -/
structure Joi where
  guidError : Value → Option Fields

/-- The modules `AvailabilityRepository.js` imports. -/
structure Modules where
  polyfill : Polyfill
  joi : Joi

/-- Prototype chain of Joi's `ValidationError`. -/
def validationErrorChain : List String :=
  ["ValidationError", "Error"]

/-! ## Guards -/

/-- The error of `assertThatDisponibilidadIsUpdatable`. -/
def notUpdatableError : Value :=
  .obj ["Error"] (setField "code" (.num 500) (newError "No se puede actualizar la disponibilidad"))

/-- The error of `assertThatDisponibilidadIsNotEmpty`. -/
def notFoundError : Value :=
  .obj ["Error"] (setField "code" (.num 404) (newError "No se encontró la disponibilidad"))

/-- The error of `assertThatIsDisponibilidad`. -/
def notDisponibilidadError : Value :=
  .obj ["TypeError", "Error"] (newError "No se recibio un modelo de disponibilidad")

/-- Guard `assertThatDisponibilidadIsUpdatable` of the source. -/
def assertThatDisponibilidadIsUpdatable (M : Modules) (disponibilidad : Value) :
    Except Value Unit :=
  match member disponibilidad "id" with
  | .error e => .error e
  | .ok id => if M.polyfill.empty id then .error notUpdatableError else .ok ()

/-- Guard `assertThatDisponibilidadIsNotEmpty` of the source. -/
def assertThatDisponibilidadIsNotEmpty (M : Modules) (disponibilidad : Value) :
    Except Value Unit :=
  if M.polyfill.empty disponibilidad then .error notFoundError else .ok ()

/-- Guard `assertThatUuidIsValid` of the source. When `isset` accepts the
`undefined` of a passing validation, the assignment `joiError.code = 400`
itself throws. -/
def assertThatUuidIsValid (M : Modules) (uuid : Value) : Except Value Unit :=
  match M.joi.guidError uuid with
  | none => if M.polyfill.isset .undefined then .error engineTypeError else .ok ()
  | some fs =>
    if M.polyfill.isset (.obj validationErrorChain fs) then
      .error (.obj validationErrorChain (setField "code" (.num 400) fs))
    else .ok ()

/-- Guard `assertThatIsDisponibilidad` of the source. -/
def assertThatIsDisponibilidad (disponibilidad : Value) : Except Value Unit :=
  if instanceOf disponibilidad "Disponibilidad" then .ok () else .error notDisponibilidadError

/-! ## Backend -/

/-- A call made on `this.repository`. -/
inductive Call where
  | save (item : Value)
  | find (query : Value)
  | count (query : Value)

/-- The TypeORM repository behind `this.repository`: each method takes its
argument and the store, and gives the settled result and the new store. -/
structure Backend (σ : Type) where
  save : Value → σ → Except Value Value × σ
  find : Value → σ → Except Value Value × σ
  count : Value → σ → Except Value Value × σ

/-- The store and the calls made on the backend so far, oldest first. -/
structure World (σ : Type) where
  store : σ
  calls : List Call

/-- Result of a repository method: the value or the thrown error, and the world
it leaves. -/
abbrev Outcome (σ : Type) := Except Value Value × World σ

/-- The call `this.repository.method(arg)` on a backend that is there. -/
def invoke {σ : Type} (method : Value → σ → Except Value Value × σ) (call : Call)
    (arg : Value) (w : World σ) : Outcome σ :=
  ((method arg w.store).1, ⟨(method arg w.store).2, w.calls ++ [call]⟩)

/-! ## Repository -/

/-- An `AvailabilityRepository` instance: the constructor sets `repository` only
when it was given a connection. -/
structure AvailabilityRepository (σ : Type) where
  repository : Option (Backend σ)

namespace AvailabilityRepository

variable {σ : Type}

/-- Method `persist` of the source. -/
def persist (self : AvailabilityRepository σ) (item : Value) (w : World σ) : Outcome σ :=
  match self.repository with
  | none => (.error engineTypeError, w)
  | some B => invoke B.save (.save item) item w

/-- The argument `find` hands to the backend:
`{ where: { ...params }, relations: ['nidInterconsulta'], ...limit }`. -/
def findQuery (params limit : Value) : Value :=
  .obj [] (spreadInto
    [("where", spread (orDefault params (.obj [] []))),
     ("relations", .arr [.str "nidInterconsulta"])]
    (ownEntries (orDefault limit (.obj [] []))))

/-- Method `find` of the source. -/
def find (self : AvailabilityRepository σ) (params limit : Value) (w : World σ) : Outcome σ :=
  match self.repository with
  | none => (.error engineTypeError, w)
  | some B => invoke B.find (.find (findQuery params limit)) (findQuery params limit) w

/-- Method `create` of the source. -/
def create (self : AvailabilityRepository σ) (disponibilidad : Value) (w : World σ) :
    Outcome σ :=
  match assertThatIsDisponibilidad disponibilidad with
  | .error e => (.error e, w)
  | .ok _ => self.persist disponibilidad w

/-- Method `get` of the source. -/
def get (self : AvailabilityRepository σ) (filters : Value) (w : World σ) : Outcome σ :=
  match member filters "limit" with
  | .error e => (.error e, w)
  | .ok lim =>
    match destructurePair lim with
    | .error e => (.error e, w)
    | .ok (skip, take) =>
      self.find (spread filters) (.obj [] [("skip", skip), ("take", take)]) w

/-- Method `byUuidOrFail` of the source. -/
def byUuidOrFail (M : Modules) (self : AvailabilityRepository σ) (uuid : Value)
    (w : World σ) : Outcome σ :=
  match assertThatUuidIsValid M uuid with
  | .error e => (.error e, w)
  | .ok _ =>
    match self.find (.obj [] [("uuid", uuid)]) .undefined w with
    | (.error e, w1) => (.error e, w1)
    | (.ok res, w1) =>
      match first res with
      | .error e => (.error e, w1)
      | .ok r0 =>
        match assertThatDisponibilidadIsNotEmpty M r0 with
        | .error e => (.error e, w1)
        | .ok _ => (.ok r0, w1)

/-- Method `update` of the source. -/
def update (M : Modules) (self : AvailabilityRepository σ) (disponibilidad : Value)
    (w : World σ) : Outcome σ :=
  match assertThatDisponibilidadIsUpdatable M disponibilidad with
  | .error e => (.error e, w)
  | .ok _ => self.persist disponibilidad w

/-- The argument `count` hands to the backend:
`{ where: { ...filters }, skip, take }`. -/
def countQuery (filters skip take : Value) : Value :=
  .obj [] [("where", spread filters), ("skip", skip), ("take", take)]

/-- Method `count` of the source; `filters` defaults to `{}`. -/
def count (self : AvailabilityRepository σ) (filters : Value) (w : World σ) : Outcome σ :=
  match member (orDefault filters (.obj [] [])) "limit" with
  | .error e => (.error e, w)
  | .ok lim =>
    match destructurePair lim with
    | .error e => (.error e, w)
    | .ok (skip, take) =>
      match self.repository with
      | none => (.error engineTypeError, w)
      | some B =>
        invoke B.count (.count (countQuery (orDefault filters (.obj [] [])) skip take))
          (countQuery (orDefault filters (.obj [] [])) skip take) w

end AvailabilityRepository

/-! ## Instances used to exercise the theorems -/

/-- An instance of `Polyfill` in the manner of PHP's `empty` and `isset`:
`undefined`, `null`, `false`, `0`, the empty string, the empty array and the
object without properties are empty, and every value but `undefined` and `null`
is set. -/
def phpPolyfill : Polyfill where
  empty v :=
    match v with
    | .undefined => true
    | .null => true
    | .bool b => !b
    | .num n => n == 0
    | .str s => s == ""
    | .arr items => items.isEmpty
    | .obj _ fs => fs.isEmpty
  isset v :=
    match v with
    | .undefined => false
    | .null => false
    | _ => true

/-- Whether `cs` has the textual form 8-4-4-4-12 of hexadecimal digits. -/
def hyphenatedHex (cs : List Char) : Bool :=
  cs.length == 36 &&
    (List.range 36).all fun i =>
      if i == 8 || i == 13 || i == 18 || i == 23 then cs.getD i ' ' == '-'
      else
        let c := cs.getD i ' '
        c.isDigit || ('a' ≤ c && c ≤ 'f') || ('A' ≤ c && c ≤ 'F')

/-- An instance of `Joi` that accepts the strings of the form 8-4-4-4-12 (one
of the forms `guid()` accepts) and `undefined` (the schema is not `required()`),
and reports an error object on every other value. -/
def hyphenatedJoi : Joi where
  guidError v :=
    match v with
    | .undefined => none
    | .str s =>
      if hyphenatedHex s.data then none
      else some [("message", .str "\"value\" must be a valid GUID")]
    | _ => some [("message", .str "\"value\" must be a string")]

/-- The two instances above as the imported modules. -/
def sampleModules : Modules :=
  ⟨phpPolyfill, hyphenatedJoi⟩

/-- Equality of scalars, as the exact-match filter of `tableBackend` uses it. -/
def sameScalar : Value → Value → Bool
  | .null, .null => true
  | .bool a, .bool b => a == b
  | .num a, .num b => a == b
  | .str a, .str b => a == b
  | _, _ => false

/-- Whether `record` has, for each property of `query.where`, the same scalar. -/
def matchesWhere (query record : Value) : Bool :=
  match member query "where" with
  | .ok (.obj _ conds) =>
    conds.all fun kv =>
      match member record kv.1 with
      | .ok v => sameScalar v kv.2
      | .error _ => false
  | _ => true

/-- A backend over a table held as a list of records: `save` appends the record
and gives it back, `find` gives the records that match the `where` clause and
`count` their number. -/
def tableBackend : Backend (List Value) where
  save item table := (.ok item, table ++ [item])
  find query table := (.ok (.arr (table.filter (matchesWhere query))), table)
  count query table := (.ok (.num (table.filter (matchesWhere query)).length), table)

/-- A repository on `tableBackend`. -/
def tableRepository : AvailabilityRepository (List Value) :=
  ⟨some tableBackend⟩

/-- An external identifier of the accepted form. -/
def sampleUuid : String :=
  "123e4567-e89b-42d3-a456-426614174000"

/-- A persisted availability record. -/
def storedDisponibilidad : Value :=
  .obj ["Disponibilidad"] [("id", .num 7), ("uuid", .str sampleUuid)]

/-- An availability record that was never persisted. -/
def newDisponibilidad : Value :=
  .obj ["Disponibilidad"] [("uuid", .str sampleUuid)]

/-- A room record. -/
def sampleAula : Value :=
  .obj ["Aula"] [("id", .num 1), ("edificio", .str "A"), ("noAsignacion", .str "A-1")]

/-- The filters `{limit: [0, 10], edificio: "A"}`. -/
def pagedFilters : Value :=
  .obj [] [("limit", .arr [.num 0, .num 10]), ("edificio", .str "A")]

/-! ## Properties of object literals -/

theorem setField_of_not_mem (k : String) (v : Value) (fs : Fields) (h : k ∉ keys fs) :
    setField k v fs = fs ++ [(k, v)] := by
  induction fs with
  | nil => rfl
  | cons kv rest ih =>
    obtain ⟨k', v'⟩ := kv
    simp only [keys, List.map_cons, List.mem_cons, not_or] at h
    have hne : ¬ k' = k := fun e => h.1 e.symm
    have hrest : k ∉ keys rest := h.2
    simp [setField, hne, ih hrest]

theorem keys_append (xs ys : Fields) : keys (xs ++ ys) = keys xs ++ keys ys := by
  simp [keys]

theorem spreadInto_of_disjoint (src acc : Fields) (hsrc : (keys src).Nodup)
    (hdis : ∀ k ∈ keys src, k ∉ keys acc) : spreadInto acc src = acc ++ src := by
  induction src generalizing acc with
  | nil => simp [spreadInto]
  | cons kv rest ih =>
    obtain ⟨k, v⟩ := kv
    have hk : k ∉ keys acc := hdis k (by simp [keys])
    have hnd : k ∉ keys rest ∧ (keys rest).Nodup := by
      simpa [keys] using hsrc
    have hstep : spreadInto acc ((k, v) :: rest) = spreadInto (acc ++ [(k, v)]) rest := by
      simp [spreadInto, setField_of_not_mem k v acc hk]
    rw [hstep, ih (acc ++ [(k, v)]) hnd.2]
    · simp
    · intro k' hk' hmem
      rw [keys_append] at hmem
      rcases List.mem_append.mp hmem with h | h
      · exact hdis k' (by simp [keys] at hk' ⊢; exact Or.inr hk') h
      · have : k' = k := by simpa [keys] using h
        exact hnd.1 (this ▸ hk')

/-- Copying an object whose property names are distinct gives the same
properties in the same order. -/
theorem spreadInto_nil (fs : Fields) (h : (keys fs).Nodup) : spreadInto [] fs = fs := by
  have := spreadInto_of_disjoint fs [] h (by simp [keys])
  simpa using this

theorem getField_setField_ne (k k' : String) (v : Value) (fs : Fields) (h : k' ≠ k) :
    getField k (setField k' v fs) = getField k fs := by
  induction fs with
  | nil => simp [setField, getField, h]
  | cons kv rest ih =>
    obtain ⟨k₀, v₀⟩ := kv
    by_cases h0 : k₀ = k'
    · subst h0
      simp [setField, getField, h]
    · by_cases h1 : k₀ = k
      · subst h1
        simp [setField, getField, h0]
      · simp [setField, getField, h0, h1, ih]

theorem getField_eq_none_cons (k k' : String) (v : Value) (rest : Fields)
    (h : getField k ((k', v) :: rest) = none) : k' ≠ k ∧ getField k rest = none := by
  by_cases h0 : k' = k
  · simp [getField, h0] at h
  · exact ⟨h0, by simpa [getField, h0] using h⟩

/-- A spread element without the property `k` leaves the `k` of the literal as
it was. -/
theorem getField_spreadInto (k : String) (src acc : Fields) (h : getField k src = none) :
    getField k (spreadInto acc src) = getField k acc := by
  induction src generalizing acc with
  | nil => rfl
  | cons kv rest ih =>
    obtain ⟨k', v⟩ := kv
    obtain ⟨hne, hrest⟩ := getField_eq_none_cons k k' v rest h
    have hstep : spreadInto acc ((k', v) :: rest) = spreadInto (setField k' v acc) rest := rfl
    rw [hstep, ih (setField k' v acc) hrest, getField_setField_ne k k' v acc hne]

theorem getField_setField_self (k : String) (v : Value) (fs : Fields) :
    getField k (setField k v fs) = some v := by
  induction fs with
  | nil => simp [setField, getField]
  | cons kv rest ih =>
    obtain ⟨k₀, v₀⟩ := kv
    by_cases h0 : k₀ = k
    · simp [setField, getField, h0]
    · simp [setField, getField, h0, ih]

theorem getField_eq_none_of_not_mem (k : String) (fs : Fields) (h : k ∉ keys fs) :
    getField k fs = none := by
  induction fs with
  | nil => rfl
  | cons kv rest ih =>
    obtain ⟨k', v⟩ := kv
    simp only [keys, List.map_cons, List.mem_cons, not_or] at h
    have hne : ¬ k' = k := fun e => h.1 e.symm
    have hrest : k ∉ keys rest := h.2
    simp [getField, hne, ih hrest]

/-- A spread element with the property `k` gives the literal its own `k`. -/
theorem getField_spreadInto_some (k : String) (v : Value) (src acc : Fields)
    (hnd : (keys src).Nodup) (h : getField k src = some v) :
    getField k (spreadInto acc src) = some v := by
  induction src generalizing acc with
  | nil => simp [getField] at h
  | cons kv rest ih =>
    obtain ⟨k', v'⟩ := kv
    have hsplit : k' ∉ keys rest ∧ (keys rest).Nodup := by
      simpa [keys] using hnd
    have hstep : spreadInto acc ((k', v') :: rest) = spreadInto (setField k' v' acc) rest := rfl
    rw [hstep]
    by_cases hk : k' = k
    · subst hk
      have hv : v' = v := by simpa [getField] using h
      subst hv
      rw [getField_spreadInto k' rest _ (getField_eq_none_of_not_mem k' rest hsplit.1)]
      exact getField_setField_self k' v' acc
    · have hrest : getField k rest = some v := by simpa [getField, hk] using h
      exact ih (setField k' v' acc) hsplit.2 hrest

theorem spread_orDefault (v : Value) : spread (orDefault v (.obj [] [])) = spread v := by
  cases v <;> rfl

theorem ownEntries_orDefault (v : Value) :
    ownEntries (orDefault v (.obj [] [])) = ownEntries v := by
  cases v <;> rfl

/-! ## update -/

open AvailabilityRepository

/-- C1: for every record `r` whose `id` is empty for `polyfill.empty`, and every
repository and backend state, `update(r)` fails with the "not updatable" error
carrying code 500 and leaves the world untouched: no call, so no `save`, is made
on the backend. -/
theorem update_without_id_fails {σ : Type} (M : Modules) (self : AvailabilityRepository σ)
    (r id : Value) (w : World σ)
    (hid : member r "id" = .ok id) (hempty : M.polyfill.empty id = true) :
    self.update M r w =
        (.error (.obj ["Error"]
          [("message", .str "No se puede actualizar la disponibilidad"),
           ("code", .num 500)]), w)
      ∧ (self.update M r w).2.calls = w.calls := by
  have h : self.update M r w = (.error notUpdatableError, w) := by
    simp [update, assertThatDisponibilidadIsUpdatable, hid, hempty]
  rw [h]
  exact ⟨rfl, rfl⟩

/-- An availability record that was never saved, on the table backend. -/
theorem update_without_id_fails_witness :
    member newDisponibilidad "id" = .ok .undefined
      ∧ sampleModules.polyfill.empty .undefined = true
      ∧ tableRepository.update sampleModules newDisponibilidad ⟨[], []⟩ =
          (.error (.obj ["Error"]
            [("message", .str "No se puede actualizar la disponibilidad"),
             ("code", .num 500)]), ⟨[], []⟩) :=
  ⟨rfl, rfl,
    (update_without_id_fails sampleModules tableRepository newDisponibilidad .undefined
      ⟨[], []⟩ rfl rfl).1⟩

/-- C7: for every record `r` whose `id` is not empty for `polyfill.empty`,
`update(r)` on a repository with a backend is `persist(r)`: it calls the
backend's `save` exactly once, with `r`, and its result is the result of that
call. -/
theorem update_with_id_persists {σ : Type} (M : Modules) (B : Backend σ)
    (r id : Value) (w : World σ)
    (hid : member r "id" = .ok id) (hempty : M.polyfill.empty id = false) :
    update M ⟨some B⟩ r w = persist ⟨some B⟩ r w
      ∧ update M ⟨some B⟩ r w =
          ((B.save r w.store).1, ⟨(B.save r w.store).2, w.calls ++ [Call.save r]⟩) := by
  have h : update M ⟨some B⟩ r w = persist ⟨some B⟩ r w := by
    simp [update, assertThatDisponibilidadIsUpdatable, hid, hempty]
  exact ⟨h, by rw [h]; rfl⟩

/-- A saved availability record, on the table backend with an empty table. -/
theorem update_with_id_persists_witness :
    member storedDisponibilidad "id" = .ok (.num 7)
      ∧ sampleModules.polyfill.empty (.num 7) = false
      ∧ tableRepository.update sampleModules storedDisponibilidad ⟨[], []⟩ =
          (.ok storedDisponibilidad, ⟨[storedDisponibilidad], [Call.save storedDisponibilidad]⟩) :=
  ⟨rfl, rfl,
    (update_with_id_persists sampleModules tableBackend storedDisponibilidad (.num 7)
      ⟨[], []⟩ rfl rfl).2⟩

/-! ## byUuidOrFail -/

/-- The query `byUuidOrFail(uuid)` builds through `find({ uuid })`. -/
theorem findQuery_uuid (uuid : Value) :
    findQuery (.obj [] [("uuid", uuid)]) .undefined =
      .obj [] [("where", .obj [] [("uuid", uuid)]),
               ("relations", .arr [.str "nidInterconsulta"])] :=
  rfl

/-- C2: for every string `s` on which `Joi.string().guid()` reports an error
`e` (an object, hence set for `polyfill.isset`), and every repository and
backend state, `byUuidOrFail(s)` fails with that error carrying code 400 and
leaves the world untouched: no call, so no `find`, is made on the backend. -/
theorem byUuidOrFail_invalid_uuid {σ : Type} (M : Modules) (self : AvailabilityRepository σ)
    (s : String) (e : Fields) (w : World σ)
    (hjoi : M.joi.guidError (.str s) = some e)
    (hisset : M.polyfill.isset (.obj validationErrorChain e) = true) :
    self.byUuidOrFail M (.str s) w =
        (.error (.obj validationErrorChain (setField "code" (.num 400) e)), w)
      ∧ getField "code" (setField "code" (.num 400) e) = some (.num 400)
      ∧ (self.byUuidOrFail M (.str s) w).2.calls = w.calls := by
  have h : self.byUuidOrFail M (.str s) w =
      (.error (.obj validationErrorChain (setField "code" (.num 400) e)), w) := by
    simp [byUuidOrFail, assertThatUuidIsValid, hjoi, hisset]
  rw [h]
  exact ⟨rfl, getField_setField_self _ _ _, rfl⟩

/-- The string `not-a-uuid` on a table that holds one record. -/
theorem byUuidOrFail_invalid_uuid_witness :
    sampleModules.joi.guidError (.str "not-a-uuid") =
        some [("message", .str "\"value\" must be a valid GUID")]
      ∧ sampleModules.polyfill.isset
          (.obj validationErrorChain [("message", .str "\"value\" must be a valid GUID")]) = true
      ∧ tableRepository.byUuidOrFail sampleModules (.str "not-a-uuid") ⟨[storedDisponibilidad], []⟩ =
          (.error (.obj ["ValidationError", "Error"]
            [("message", .str "\"value\" must be a valid GUID"), ("code", .num 400)]),
           ⟨[storedDisponibilidad], []⟩) :=
  ⟨rfl, rfl,
    (byUuidOrFail_invalid_uuid sampleModules tableRepository "not-a-uuid"
      [("message", .str "\"value\" must be a valid GUID")] ⟨[storedDisponibilidad], []⟩
      rfl rfl).1⟩

/-- C3: for every string `u` that passes the UUID check, when the backend's
`find` answers the query for `{uuid: u}` with the empty sequence,
`byUuidOrFail(u)` fails with the "not found" error carrying code 404, after that
one `find` call. The helpers are taken to treat `undefined` as not set and as
empty. -/
theorem byUuidOrFail_not_found {σ : Type} (M : Modules) (B : Backend σ)
    (u : String) (w : World σ) (s' : σ)
    (hvalid : M.joi.guidError (.str u) = none)
    (hisset : M.polyfill.isset .undefined = false)
    (hempty : M.polyfill.empty .undefined = true)
    (hfind : B.find (.obj [] [("where", .obj [] [("uuid", .str u)]),
                              ("relations", .arr [.str "nidInterconsulta"])]) w.store =
        (.ok (.arr []), s')) :
    byUuidOrFail M ⟨some B⟩ (.str u) w =
      (.error (.obj ["Error"]
        [("message", .str "No se encontró la disponibilidad"), ("code", .num 404)]),
       ⟨s', w.calls ++ [Call.find (.obj [] [("where", .obj [] [("uuid", .str u)]),
                                            ("relations", .arr [.str "nidInterconsulta"])])]⟩) := by
  simp [byUuidOrFail, assertThatUuidIsValid, hvalid, hisset, find, invoke, findQuery_uuid,
    hfind, first, assertThatDisponibilidadIsNotEmpty, hempty, notFoundError, setField, newError]

/-- A well-formed external identifier on the empty table. -/
theorem byUuidOrFail_not_found_witness :
    sampleModules.joi.guidError (.str sampleUuid) = none
      ∧ tableRepository.byUuidOrFail sampleModules (.str sampleUuid) ⟨[], []⟩ =
          (.error (.obj ["Error"]
            [("message", .str "No se encontró la disponibilidad"), ("code", .num 404)]),
           ⟨[], [Call.find (.obj [] [("where", .obj [] [("uuid", .str sampleUuid)]),
                                     ("relations", .arr [.str "nidInterconsulta"])])]⟩) :=
  ⟨rfl,
    byUuidOrFail_not_found sampleModules tableBackend sampleUuid ⟨[], []⟩ []
      rfl rfl rfl rfl⟩

/-- C4: for every string `u` that passes the UUID check, when the backend's
`find` answers the query for `{uuid: u}` with a sequence whose first record is
`m` (alone or followed by others), `byUuidOrFail(u)` returns `m` itself and
raises no error, after that one `find` call. The helpers are taken to treat
`undefined` as not set, and the record `m` is not empty for `polyfill.empty`. -/
theorem byUuidOrFail_returns_first {σ : Type} (M : Modules) (B : Backend σ)
    (u : String) (m : Value) (others : List Value) (w : World σ) (s' : σ)
    (hvalid : M.joi.guidError (.str u) = none)
    (hisset : M.polyfill.isset .undefined = false)
    (hm : M.polyfill.empty m = false)
    (hfind : B.find (.obj [] [("where", .obj [] [("uuid", .str u)]),
                              ("relations", .arr [.str "nidInterconsulta"])]) w.store =
        (.ok (.arr (m :: others)), s')) :
    byUuidOrFail M ⟨some B⟩ (.str u) w =
      (.ok m,
       ⟨s', w.calls ++ [Call.find (.obj [] [("where", .obj [] [("uuid", .str u)]),
                                            ("relations", .arr [.str "nidInterconsulta"])])]⟩) := by
  simp [byUuidOrFail, assertThatUuidIsValid, hvalid, hisset, find, invoke, findQuery_uuid,
    hfind, first, assertThatDisponibilidadIsNotEmpty, hm]

/-- A well-formed external identifier on a table where one record carries it. -/
theorem byUuidOrFail_returns_first_witness :
    sampleModules.polyfill.empty storedDisponibilidad = false
      ∧ tableRepository.byUuidOrFail sampleModules (.str sampleUuid)
          ⟨[storedDisponibilidad, sampleAula], []⟩ =
          (.ok storedDisponibilidad,
           ⟨[storedDisponibilidad, sampleAula],
            [Call.find (.obj [] [("where", .obj [] [("uuid", .str sampleUuid)]),
                                 ("relations", .arr [.str "nidInterconsulta"])])]⟩) :=
  ⟨rfl,
    byUuidOrFail_returns_first sampleModules tableBackend sampleUuid storedDisponibilidad []
      ⟨[storedDisponibilidad, sampleAula], []⟩ [storedDisponibilidad, sampleAula]
      rfl rfl rfl rfl⟩

/-! ## create -/

/-- C5: `create(v)` is stopped by its guard exactly when `v` is not an instance
of `Disponibilidad`. A value that is not one fails with the `TypeError`, which
has no `code`, and the world is untouched (no `persist`, no `save`); an instance
is handed to `persist`, which on a backend calls `save` once with `v`. Nothing
here looks at the `id` of `v`. -/
theorem create_guard_iff_not_instance {σ : Type} (self : AvailabilityRepository σ)
    (B : Backend σ) (v : Value) (w : World σ) :
    ((∃ e, assertThatIsDisponibilidad v = .error e) ↔ instanceOf v "Disponibilidad" = false)
      ∧ (instanceOf v "Disponibilidad" = false →
          self.create v w =
            (.error (.obj ["TypeError", "Error"]
              [("message", .str "No se recibio un modelo de disponibilidad")]), w))
      ∧ member notDisponibilidadError "code" = .ok .undefined
      ∧ (instanceOf v "Disponibilidad" = true →
          self.create v w = self.persist v w
            ∧ create ⟨some B⟩ v w =
                ((B.save v w.store).1, ⟨(B.save v w.store).2, w.calls ++ [Call.save v]⟩)) := by
  refine ⟨?_, ?_, rfl, ?_⟩
  · cases h : instanceOf v "Disponibilidad" <;> simp [assertThatIsDisponibilidad, h]
  · intro h
    simp [create, assertThatIsDisponibilidad, h, notDisponibilidadError, newError]
  · intro h
    have hc : ∀ r : AvailabilityRepository σ, r.create v w = r.persist v w := by
      intro r
      simp [create, assertThatIsDisponibilidad, h]
    exact ⟨hc self, by rw [hc]; rfl⟩

/-- A room record and a plain mapping are refused; an availability record is saved with or without `id`. -/
theorem create_guard_iff_not_instance_witness :
    create tableRepository sampleAula ⟨[], []⟩ =
        (.error (.obj ["TypeError", "Error"]
          [("message", .str "No se recibio un modelo de disponibilidad")]), ⟨[], []⟩)
      ∧ create tableRepository (.obj [] [("uuid", .str sampleUuid)]) ⟨[], []⟩ =
        (.error (.obj ["TypeError", "Error"]
          [("message", .str "No se recibio un modelo de disponibilidad")]), ⟨[], []⟩)
      ∧ create tableRepository newDisponibilidad ⟨[], []⟩ =
        (.ok newDisponibilidad, ⟨[newDisponibilidad], [Call.save newDisponibilidad]⟩)
      ∧ create tableRepository storedDisponibilidad ⟨[], []⟩ =
        (.ok storedDisponibilidad, ⟨[storedDisponibilidad], [Call.save storedDisponibilidad]⟩) :=
  ⟨(create_guard_iff_not_instance tableRepository tableBackend sampleAula ⟨[], []⟩).2.1 rfl,
   (create_guard_iff_not_instance tableRepository tableBackend
      (.obj [] [("uuid", .str sampleUuid)]) ⟨[], []⟩).2.1 rfl,
   ((create_guard_iff_not_instance tableRepository tableBackend newDisponibilidad
      ⟨[], []⟩).2.2.2 rfl).2,
   ((create_guard_iff_not_instance tableRepository tableBackend storedDisponibilidad
      ⟨[], []⟩).2.2.2 rfl).2⟩

/-! ## find -/

/-- C9: on a repository with a backend, `find(params, limit)` makes one `find`
call on the backend and its result is the result of that call, whatever
`params` and `limit` are: it raises nothing of its own. In particular an empty
sequence from the backend is returned as the empty sequence. -/
theorem find_returns_backend_result {σ : Type} (B : Backend σ) (params limit : Value)
    (w : World σ) :
    (find ⟨some B⟩ params limit w).1 = (B.find (findQuery params limit) w.store).1
      ∧ (find ⟨some B⟩ params limit w).2 =
          ⟨(B.find (findQuery params limit) w.store).2,
            w.calls ++ [Call.find (findQuery params limit)]⟩
      ∧ (∀ s', B.find (findQuery params limit) w.store = (.ok (.arr []), s') →
          find ⟨some B⟩ params limit w =
            (.ok (.arr []), ⟨s', w.calls ++ [Call.find (findQuery params limit)]⟩)) := by
  refine ⟨rfl, rfl, ?_⟩
  intro s' h
  simp [find, invoke, h]

/-- The call `find({}, {})` on the empty table. -/
theorem find_returns_backend_result_witness :
    find tableRepository (.obj [] []) (.obj [] []) ⟨[], []⟩ =
      (.ok (.arr []),
       ⟨[], [Call.find (.obj [] [("where", .obj [] []),
                                 ("relations", .arr [.str "nidInterconsulta"])])]⟩) :=
  (find_returns_backend_result tableBackend (.obj [] []) (.obj [] []) ⟨[], []⟩).2.2 [] rfl

/-- C8, as the code has it: `find(params, limit)` on a backend hands it the
query `findQuery params limit`, in which
* `relations` is `['nidInterconsulta']` whenever `limit` has no `relations`
  property of its own, whatever else it has;
* `where` is the copy `{ ...params }` whenever `limit` has no `where` property
  of its own, and for a `params` object with distinct property names that copy
  has exactly the properties of `params`;
* a `relations` or a `where` property of `limit` (an object, its property names
  distinct) takes the place of the one `find` wrote.
The `{ skip, take }` that `get` passes and the absent `limit` of `byUuidOrFail`
have neither property. -/
theorem find_query_where_and_relations {σ : Type} (B : Backend σ) (params limit : Value)
    (w : World σ) :
    (find ⟨some B⟩ params limit w).2.calls = w.calls ++ [Call.find (findQuery params limit)]
      ∧ (getField "relations" (ownEntries limit) = none →
          member (findQuery params limit) "relations" = .ok (.arr [.str "nidInterconsulta"]))
      ∧ (getField "where" (ownEntries limit) = none →
          member (findQuery params limit) "where" = .ok (spread params)
            ∧ ∀ c fs, params = .obj c fs → (keys fs).Nodup →
                member (findQuery params limit) "where" = .ok (.obj [] fs))
      ∧ (∀ v, (keys (ownEntries limit)).Nodup →
          getField "relations" (ownEntries limit) = some v →
          member (findQuery params limit) "relations" = .ok v)
      ∧ (∀ v, (keys (ownEntries limit)).Nodup →
          getField "where" (ownEntries limit) = some v →
          member (findQuery params limit) "where" = .ok v)
      ∧ (∀ skip take,
          getField "where" (ownEntries (.obj [] [("skip", skip), ("take", take)])) = none
            ∧ getField "relations" (ownEntries (.obj [] [("skip", skip), ("take", take)])) = none)
      ∧ getField "where" (ownEntries .undefined) = none
      ∧ getField "relations" (ownEntries .undefined) = none := by
  refine ⟨rfl, ?_, ?_, ?_, ?_, ?_, rfl, rfl⟩
  · intro hr
    simp only [findQuery, member, ownEntries_orDefault]
    rw [getField_spreadInto "relations" _ _ hr]
    rfl
  · intro hw
    have hwhere : member (findQuery params limit) "where" = .ok (spread params) := by
      simp only [findQuery, member, ownEntries_orDefault, spread_orDefault]
      rw [getField_spreadInto "where" _ _ hw]
      rfl
    refine ⟨hwhere, ?_⟩
    intro c fs hp hnd
    rw [hwhere, hp]
    simp [spread, ownEntries, spreadInto_nil fs hnd]
  · intro v hnd hv
    simp only [findQuery, member, ownEntries_orDefault]
    rw [getField_spreadInto_some "relations" v _ _ hnd hv]
    rfl
  · intro v hnd hv
    simp only [findQuery, member, ownEntries_orDefault]
    rw [getField_spreadInto_some "where" v _ _ hnd hv]
    rfl
  · intro skip take
    exact ⟨rfl, rfl⟩

/-- The queries for `find({ edificio: "A" }, { skip: 0, take: 10 })`, which
keeps both parts, and for `find({ edificio: "A" }, { where: { id: 1 } })`, which
keeps the relation and takes the `where` of its second argument. -/
theorem find_query_where_and_relations_witness :
    member (findQuery (.obj [] [("edificio", .str "A")])
          (.obj [] [("skip", .num 0), ("take", .num 10)])) "relations" =
          .ok (.arr [.str "nidInterconsulta"])
      ∧ member (findQuery (.obj [] [("edificio", .str "A")])
          (.obj [] [("skip", .num 0), ("take", .num 10)])) "where" =
          .ok (.obj [] [("edificio", .str "A")])
      ∧ member (findQuery (.obj [] [("edificio", .str "A")])
          (.obj [] [("where", .obj [] [("id", .num 1)])])) "relations" =
          .ok (.arr [.str "nidInterconsulta"])
      ∧ member (findQuery (.obj [] [("edificio", .str "A")])
          (.obj [] [("where", .obj [] [("id", .num 1)])])) "where" =
          .ok (.obj [] [("id", .num 1)]) :=
  ⟨(find_query_where_and_relations tableBackend (.obj [] [("edificio", .str "A")])
      (.obj [] [("skip", .num 0), ("take", .num 10)]) ⟨[], []⟩).2.1 rfl,
   ((find_query_where_and_relations tableBackend (.obj [] [("edificio", .str "A")])
      (.obj [] [("skip", .num 0), ("take", .num 10)]) ⟨[], []⟩).2.2.1 rfl).2
      [] [("edificio", .str "A")] rfl (by simp [keys]),
   (find_query_where_and_relations tableBackend (.obj [] [("edificio", .str "A")])
      (.obj [] [("where", .obj [] [("id", .num 1)])]) ⟨[], []⟩).2.1 rfl,
   (find_query_where_and_relations tableBackend (.obj [] [("edificio", .str "A")])
      (.obj [] [("where", .obj [] [("id", .num 1)])]) ⟨[], []⟩).2.2.2.2.1
      (.obj [] [("id", .num 1)]) (by simp [keys, ownEntries]) rfl⟩

/-- C8 as stated fails: a `limit` argument with properties `relations` and
`where` replaces both in the query, since `...limit` comes last in the literal.
`find({ edificio: "A" }, { relations: [], where: { id: 1 } })` queries the
backend with `where: { id: 1 }` and `relations: []`. -/
theorem find_limit_replaces_where_and_relations :
    (find tableRepository (.obj [] [("edificio", .str "A")])
        (.obj [] [("relations", .arr []), ("where", .obj [] [("id", .num 1)])])
        ⟨[], []⟩).2.calls =
        [Call.find (.obj [] [("where", .obj [] [("id", .num 1)]), ("relations", .arr [])])]
      ∧ member (findQuery (.obj [] [("edificio", .str "A")])
          (.obj [] [("relations", .arr []), ("where", .obj [] [("id", .num 1)])])) "relations" ≠
          .ok (.arr [.str "nidInterconsulta"])
      ∧ member (findQuery (.obj [] [("edificio", .str "A")])
          (.obj [] [("relations", .arr []), ("where", .obj [] [("id", .num 1)])])) "where" ≠
          .ok (.obj [] [("edificio", .str "A")]) := by
  refine ⟨rfl, ?_, ?_⟩
  · intro h
    have h' : (Except.ok (Value.arr []) : Except Value Value) =
        .ok (.arr [.str "nidInterconsulta"]) := h
    simp at h'
  · intro h
    have h' : (Except.ok (Value.obj [] [("id", .num 1)]) : Except Value Value) =
        .ok (.obj [] [("edificio", .str "A")]) := h
    simp at h'

/-! ## get and count -/

/-- C6, as the code has it: for every filters object with distinct property
names whose `limit` is the pair `[skip, take]`, `get(filters)` is
`find({ ...filters }, { skip, take })`: the pagination is `{ skip, take }` and
the filter is a copy of all the properties of `filters`, `limit` included. The
backend is queried once, with that copy as `where`. -/
theorem get_forwards_all_filters {σ : Type} (B : Backend σ) (c : List String) (fs : Fields)
    (skip take : Value) (w : World σ)
    (hlimit : getField "limit" fs = some (.arr [skip, take]))
    (hnodup : (keys fs).Nodup) :
    AvailabilityRepository.get ⟨some B⟩ (.obj c fs) w =
        find ⟨some B⟩ (.obj [] fs) (.obj [] [("skip", skip), ("take", take)]) w
      ∧ (AvailabilityRepository.get ⟨some B⟩ (.obj c fs) w).2.calls =
          w.calls ++ [Call.find (.obj [] [("where", .obj [] fs),
                                          ("relations", .arr [.str "nidInterconsulta"]),
                                          ("skip", skip), ("take", take)])]
      ∧ member (.obj [] fs) "limit" = .ok (.arr [skip, take]) := by
  have hq : findQuery (.obj [] fs) (.obj [] [("skip", skip), ("take", take)]) =
      .obj [] [("where", .obj [] fs), ("relations", .arr [.str "nidInterconsulta"]),
               ("skip", skip), ("take", take)] := by
    have h1 : spread (orDefault (.obj [] fs) (.obj [] [])) = .obj [] fs := by
      simp [orDefault, spread, ownEntries, spreadInto_nil fs hnodup]
    unfold findQuery
    rw [h1]
    rfl
  have hg : AvailabilityRepository.get ⟨some B⟩ (.obj c fs) w =
      find ⟨some B⟩ (.obj [] fs) (.obj [] [("skip", skip), ("take", take)]) w := by
    simp [AvailabilityRepository.get, member, hlimit, destructurePair, spread, ownEntries, spreadInto_nil fs hnodup]
  refine ⟨hg, ?_, ?_⟩
  · rw [hg]
    simp [find, invoke, hq]
  · simp [member, hlimit]

/-- The call `get({limit: [0, 10], edificio: "A"})` on the empty table. -/
theorem get_forwards_all_filters_witness :
    getField "limit" [("limit", .arr [.num 0, .num 10]), ("edificio", .str "A")] =
        some (.arr [.num 0, .num 10])
      ∧ (tableRepository.get pagedFilters ⟨[], []⟩).2.calls =
          [Call.find (.obj []
            [("where", .obj [] [("limit", .arr [.num 0, .num 10]), ("edificio", .str "A")]),
             ("relations", .arr [.str "nidInterconsulta"]),
             ("skip", .num 0), ("take", .num 10)])] :=
  ⟨rfl,
   (get_forwards_all_filters tableBackend []
      [("limit", .arr [.num 0, .num 10]), ("edificio", .str "A")] (.num 0) (.num 10)
      ⟨[], []⟩ rfl (by simp [keys])).2.1⟩

/-- C6 as stated fails: `get({limit: [0, 10], edificio: "A"})` queries the
backend with the `where` clause `{limit: [0, 10], edificio: "A"}`, not with
`{edificio: "A"}`: the `limit` property is copied along. -/
theorem get_where_keeps_limit :
    (tableRepository.get pagedFilters ⟨[], []⟩).2.calls =
        [Call.find (.obj []
          [("where", .obj [] [("limit", .arr [.num 0, .num 10]), ("edificio", .str "A")]),
           ("relations", .arr [.str "nidInterconsulta"]),
           ("skip", .num 0), ("take", .num 10)])]
      ∧ (tableRepository.get pagedFilters ⟨[], []⟩).2.calls ≠
        [Call.find (.obj []
          [("where", .obj [] [("edificio", .str "A")]),
           ("relations", .arr [.str "nidInterconsulta"]),
           ("skip", .num 0), ("take", .num 10)])] := by
  have h : (tableRepository.get pagedFilters ⟨[], []⟩).2.calls =
      [Call.find (.obj []
        [("where", .obj [] [("limit", .arr [.num 0, .num 10]), ("edificio", .str "A")]),
         ("relations", .arr [.str "nidInterconsulta"]),
         ("skip", .num 0), ("take", .num 10)])] := rfl
  refine ⟨h, ?_⟩
  rw [h]
  simp

/-- C10: for every plain filters object without a `limit` property, and for
`count` called without argument (its filters are then `{}`), `get` and `count`
fail with the engine's `TypeError` of destructuring `undefined` and leave the
world untouched: neither `find` nor `count` is called on the backend and
nothing is returned. The same holds for any filters whose `limit` reads as
`undefined`. -/
theorem get_and_count_fail_without_limit {σ : Type} (self : AvailabilityRepository σ)
    (fs : Fields) (w : World σ)
    (hlimit : getField "limit" fs = none) :
    self.get (.obj [] fs) w = (.error engineTypeError, w)
      ∧ self.count (.obj [] fs) w = (.error engineTypeError, w)
      ∧ self.count .undefined w = self.count (.obj [] []) w
      ∧ self.count .undefined w = (.error engineTypeError, w)
      ∧ (∀ filters, member filters "limit" = .ok .undefined →
          self.get filters w = (.error engineTypeError, w)
            ∧ self.count filters w = (.error engineTypeError, w)) := by
  refine ⟨?_, ?_, rfl, ?_, ?_⟩
  · simp [AvailabilityRepository.get, member, hlimit, destructurePair]
  · simp [count, orDefault, member, hlimit, destructurePair]
  · simp [count, orDefault, member, getField, destructurePair]
  · intro filters hread
    have hdef : orDefault filters (.obj [] []) = filters := by
      cases filters <;> first | rfl | simp [member] at hread
    constructor
    · simp [AvailabilityRepository.get, hread, destructurePair]
    · simp [count, hdef, hread, destructurePair]

/-- The filters `{ edificio: "A" }`, and no filters at all, on a table that
holds one record. -/
theorem get_and_count_fail_without_limit_witness :
    getField "limit" [("edificio", .str "A")] = none
      ∧ tableRepository.get (.obj [] [("edificio", .str "A")]) ⟨[storedDisponibilidad], []⟩ =
          (.error engineTypeError, ⟨[storedDisponibilidad], []⟩)
      ∧ tableRepository.count (.obj [] [("edificio", .str "A")]) ⟨[storedDisponibilidad], []⟩ =
          (.error engineTypeError, ⟨[storedDisponibilidad], []⟩)
      ∧ tableRepository.count .undefined ⟨[storedDisponibilidad], []⟩ =
          (.error engineTypeError, ⟨[storedDisponibilidad], []⟩) :=
  ⟨rfl,
   (get_and_count_fail_without_limit tableRepository [("edificio", .str "A")]
     ⟨[storedDisponibilidad], []⟩ rfl).1,
   (get_and_count_fail_without_limit tableRepository [("edificio", .str "A")]
     ⟨[storedDisponibilidad], []⟩ rfl).2.1,
   (get_and_count_fail_without_limit tableRepository [("edificio", .str "A")]
     ⟨[storedDisponibilidad], []⟩ rfl).2.2.2.1⟩

end Asesorias
